import Mathlib

/-!
Verification of the overwatch triage core.

Shallow embedding of the Python modules
`overwatch_core/learning/decision_aggregator.py`,
`overwatch_core/learning/feature_extraction.py`,
`overwatch_core/brain/model_router.py`,
`overwatch_core/brain/claude_agent.py` (the escalation gate), and
`overwatch_core/brain/cost_tracker.py`.

Python floats are modelled as exact rationals (`ℚ`); the one operation that
leaves the rationals, `numpy.std` (a square root), is modelled over `ℝ`.
Python dicts are modelled as association lists with first-match lookup, and
`dict.get(k, d)` becomes `dictGetD`.
-/

set_option maxRecDepth 8000

namespace Overwatch

/-- Lookup in an association list, modelling Python `dict[k]` access
(`k in d` is `(dictGet d k).isSome`). -/
def dictGet {α : Type} (d : List (String × α)) (k : String) : Option α :=
  (d.find? (fun kv => kv.1 == k)).map (fun kv => kv.2)

/-- Python `d.get(k, default)`. -/
def dictGetD {α : Type} (d : List (String × α)) (k : String) (default : α) : α :=
  (dictGet d k).getD default

/-- Python `d[k] = v`: overwrite the first binding of `k`, or append a new one. -/
def dictSet {α : Type} (d : List (String × α)) (k : String) (v : α) :
    List (String × α) :=
  match d with
  | [] => [(k, v)]
  | kv :: rest => if kv.1 == k then (k, v) :: rest else kv :: dictSet rest k v

/-- Python `l[-n:]`: the at most `n` most recent entries of `l`. -/
def lastN {α : Type} (n : Nat) (l : List α) : List α :=
  l.drop (l.length - n)

/-- Python `max(iterable, default=d)`. -/
def pyMaxD (l : List ℚ) (default : ℚ) : ℚ :=
  match l with
  | [] => default
  | x :: xs => xs.foldl max x

/-! ## decision_aggregator.py: data model -/

/-- `PredictorType(str, Enum)` from decision_aggregator.py. -/
inductive PredictorType
  | rule_based
  | ml_model
  | llm
deriving DecidableEq, Repr

/-- The `.value` of the string enum. -/
def PredictorType.value : PredictorType → String
  | .rule_based => "rule_based"
  | .ml_model => "ml_model"
  | .llm => "llm"

/-- `@dataclass Prediction` from decision_aggregator.py. -/
structure Prediction where
  predictor_type : PredictorType
  predictor_name : String
  vulnerability_type : String
  confidence : ℚ
  reasoning : Option String := none
  cost : ℚ := 0
deriving DecidableEq, Repr

/-! ## claude_agent.py: the escalation gate -/

/-- The part of `Observation` read by `ClaudePentestAgent._should_use_llm`:
its `predictions` dict (predictor name → score). -/
structure ObservationPredictions where
  predictions : List (String × ℚ)
deriving DecidableEq, Repr

/-- `max((o.predictions.get("rule_based", 0) for o in observations), default=0)`
from `_should_use_llm`. -/
def maxRuleConf (observations : List ObservationPredictions) : ℚ :=
  pyMaxD (observations.map (fun o => dictGetD o.predictions "rule_based" 0)) 0

/-- `ClaudePentestAgent._should_use_llm` from claude_agent.py. -/
def should_use_llm (observations : List ObservationPredictions) : Bool :=
  let max_rule_conf := maxRuleConf observations
  if max_rule_conf > 0.9 ∨ max_rule_conf < 0.1 then false else true

/-! ## cost_tracker.py -/

/-- `AIUsageLog` row as read by `CostTracker`; the SQL `func.date(timestamp)`
is modelled by storing the UTC calendar date of the timestamp as an integer
day number `timestamp_date`. -/
structure AIUsageLog where
  model : String
  input_tokens : Nat
  output_tokens : Nat
  cost : ℚ
  task_type : String
  timestamp_date : ℤ
deriving DecidableEq, Repr

/-- `CostTracker.get_daily_spend`: the SQL `sum(cost) where date(timestamp) =
today`, with `result.scalar() or 0.0` collapsing an empty sum to `0`. -/
def get_daily_spend (ledger : List AIUsageLog) (today : ℤ) : ℚ :=
  ((ledger.filter (fun e => e.timestamp_date == today)).map (fun e => e.cost)).sum

/-- `CostTracker.can_make_request` from cost_tracker.py. -/
def can_make_request (ledger : List AIUsageLog) (today : ℤ)
    (daily_budget estimated_cost : ℚ) : Bool :=
  get_daily_spend ledger today + estimated_cost ≤ daily_budget

/-! ## model_router.py -/

/-- `ModelTier(str, Enum)` from model_router.py. -/
inductive ModelTier
  | haiku
  | sonnet
  | opus
deriving DecidableEq, Repr

/-- The `.value` of the string enum. -/
def ModelTier.value : ModelTier → String
  | .haiku => "haiku"
  | .sonnet => "sonnet"
  | .opus => "opus"

/-- One entry of `ModelRouter.TIER_CRITERIA`; `max_observations = none`
models Python `float("inf")`. -/
structure TierCriteria where
  max_observations : Option Nat
  task_types : List String
  max_tokens : Nat
deriving DecidableEq, Repr

/-- `ModelRouter.TIER_CRITERIA` from model_router.py. -/
def TIER_CRITERIA : ModelTier → TierCriteria
  | .haiku =>
    ⟨some 5, ["log_parsing", "simple_classification", "tool_output_summary"], 2000⟩
  | .sonnet =>
    ⟨some 20, ["vulnerability_analysis", "report_generation", "chain_detection"], 8000⟩
  | .opus =>
    ⟨none, ["business_logic_analysis", "novel_attack_chains", "complex_exploitation"], 32000⟩

/-- `ModelRouter.PRICING` (input price, output price) per million tokens. -/
def PRICING : ModelTier → ℚ × ℚ
  | .haiku => (0.25, 1.25)
  | .sonnet => (3.0, 15.0)
  | .opus => (15.0, 75.0)

/-- `num_obs <= criteria["max_observations"]`, true for `float("inf")`. -/
def obsWithin : Option Nat → Nat → Bool
  | none, _ => true
  | some m, n => n ≤ m

/-- `ModelRouter._estimate_tokens`: 500 per observation plus the fixed
context (200), system prompt (300) and expected output (400) allowances;
`context` is ignored by the source. -/
def estimate_tokens (observations : List String)
    (context : List (String × String)) : Nat :=
  observations.length * 500 + 200 + 300 + 400

/-- Python `round` to an integer: round half to even. -/
def roundHalfEven (q : ℚ) : ℤ :=
  let f := ⌊q⌋
  let r := q - f
  if r < 1 / 2 then f
  else if r > 1 / 2 then f + 1
  else if f % 2 = 0 then f else f + 1

/-- Python `round(q, n)` for `n` decimal digits. -/
def pyRound (q : ℚ) (ndigits : Nat) : ℚ :=
  (roundHalfEven (q * 10 ^ ndigits) : ℚ) / 10 ^ ndigits

/-- `ModelRouter._estimate_cost`: 80% input / 20% output split, priced per
million tokens, rounded to 4 decimal places. -/
def estimate_cost (tier : ModelTier) (tokens : Nat) : ℚ :=
  let prices := PRICING tier
  let input_tokens : ℚ := (tokens : ℚ) * 0.8
  let output_tokens : ℚ := (tokens : ℚ) * 0.2
  pyRound (input_tokens * prices.1 / 1000000 + output_tokens * prices.2 / 1000000) 4

/-- `@dataclass TaskClassification` from model_router.py. -/
structure TaskClassification where
  tier : ModelTier
  estimated_tokens : Nat
  estimated_cost : ℚ
  reasoning : String
deriving DecidableEq, Repr

/-- `ModelRouter.classify_task`: walk the tiers in cost order and pick the
first one whose task-type set, observation bound and token budget all accept
the task; otherwise default to Sonnet.  `_estimate_tokens` does not depend on
the tier, so the token estimate computed inside the source loop equals the
one computed in the default branch and is hoisted.  The source interpolates
the task type between single quotes in `reasoning`; the quotes are dropped
here. -/
def classify_task (task_type : String) (observations : List String)
    (context : List (String × String)) : TaskClassification :=
  let num_obs := observations.length
  let tokens := estimate_tokens observations context
  let fits := fun (tier : ModelTier) =>
    let criteria := TIER_CRITERIA tier
    criteria.task_types.contains task_type &&
      obsWithin criteria.max_observations num_obs &&
      decide (tokens ≤ criteria.max_tokens)
  match [ModelTier.haiku, ModelTier.sonnet, ModelTier.opus].find? fits with
  | some tier =>
    ⟨tier, tokens, estimate_cost tier tokens,
      "Task " ++ task_type ++ " with " ++ toString num_obs ++
        " observations fits " ++ tier.value⟩
  | none =>
    ⟨ModelTier.sonnet, tokens, estimate_cost ModelTier.sonnet tokens,
      "Default to Sonnet for unclassified task"⟩

/-! ## decision_aggregator.py: the aggregator -/

/-- The mutable state of a `DecisionAggregator`: the weight dict and the
accuracy-history dict (key `"{predictor_type}:{vulnerability_type}"`). -/
structure DecisionAggregator where
  weights : List (String × ℚ)
  accuracy_history : List (String × List Bool)
deriving DecidableEq, Repr

/-- The default weights installed by `DecisionAggregator.__init__` when no
`initial_weights` are supplied. -/
def defaultWeights : List (String × ℚ) :=
  [("rule_based", 0.3), ("ml_model", 0.4), ("llm", 0.3)]

/-- `sum(history)` for a list of booleans: the number of `true` entries. -/
def countTrue (l : List Bool) : Nat :=
  (l.filter (fun b => b)).length

/-- `DecisionAggregator._get_dynamic_weight`: the base weight
(`self.weights.get(predictor_type, 0.33)`), scaled by
`0.5 + recent_accuracy * 1.5` once the key has at least 10 recorded
outcomes, where `recent_accuracy` is over the last at most 50 outcomes. -/
def get_dynamic_weight (agg : DecisionAggregator)
    (predictor_type vulnerability_type : String) : ℚ :=
  let base_weight := dictGetD agg.weights predictor_type 0.33
  let key := predictor_type ++ ":" ++ vulnerability_type
  match dictGet agg.accuracy_history key with
  | some history =>
    if 10 ≤ history.length then
      let recent := lastN 50 history
      let recent_accuracy : ℚ := (countTrue recent : ℚ) / (recent.length : ℚ)
      let adjustment := 0.5 + recent_accuracy * 1.5
      base_weight * adjustment
    else base_weight
  | none => base_weight

/-- Population variance of a list, the square of `numpy.std`. -/
def popVariance (xs : List ℚ) : ℚ :=
  let mean := xs.sum / (xs.length : ℚ)
  ((xs.map (fun x => (x - mean) ^ 2)).sum) / (xs.length : ℚ)

/-- `numpy.std(xs)`: the population standard deviation. -/
noncomputable def npStd (xs : List ℚ) : ℝ :=
  Real.sqrt ((popVariance xs : ℚ) : ℝ)

/-- The dict returned by `DecisionAggregator.aggregate`.  The two early
returns omit the `individual_predictions` key; that absence is modelled as
the empty list. -/
structure AggregateResult where
  confidence : ℚ
  predictor_agreement : ℝ
  recommended_action : String
  individual_predictions : List (String × ℚ)

/-- `DecisionAggregator.aggregate` from decision_aggregator.py. -/
noncomputable def aggregate (agg : DecisionAggregator)
    (predictions : List Prediction) (vulnerability_type : String) :
    AggregateResult :=
  if predictions.isEmpty then ⟨0, 0, "ignore", []⟩
  else
    let relevant :=
      predictions.filter (fun p => p.vulnerability_type == vulnerability_type)
    if relevant.isEmpty then ⟨0, 0, "ignore", []⟩
    else
      let weighted_sum :=
        (relevant.map (fun p =>
          p.confidence *
            get_dynamic_weight agg p.predictor_type.value vulnerability_type)).sum
      let weight_sum :=
        (relevant.map (fun p =>
          get_dynamic_weight agg p.predictor_type.value vulnerability_type)).sum
      let final_confidence := if weight_sum > 0 then weighted_sum / weight_sum else 0
      let confidences := relevant.map (fun p => p.confidence)
      let agreement : ℝ :=
        if 1 < confidences.length then 1 - npStd confidences else 1.0
      let action :=
        if final_confidence ≥ 0.8 ∧ agreement ≥ (0.7 : ℝ) then "report"
        else if final_confidence ≥ 0.5 then "validate"
        else "ignore"
      ⟨final_confidence, agreement, action,
        relevant.map (fun p => (p.predictor_name, p.confidence))⟩

/-- `(predicted_confidence >= 0.5) == was_correct` from `record_outcome`. -/
def directionallyCorrect (predicted_confidence : ℚ) (was_correct : Bool) : Bool :=
  decide (predicted_confidence ≥ 0.5) == was_correct

/-- `DecisionAggregator.record_outcome`: append the directional-correctness
boolean to the key's history (creating it when absent), then trim to the
most recent 500 entries once the length exceeds 1000. -/
def record_outcome (agg : DecisionAggregator)
    (predictor_type vulnerability_type : String)
    (predicted_confidence : ℚ) (was_correct : Bool) : DecisionAggregator :=
  let key := predictor_type ++ ":" ++ vulnerability_type
  let history := (dictGet agg.accuracy_history key).getD []
  let appended := history ++ [directionallyCorrect predicted_confidence was_correct]
  let trimmed := if 1000 < appended.length then lastN 500 appended else appended
  { agg with accuracy_history := dictSet agg.accuracy_history key trimmed }

/-- A sequence of `record_outcome` calls for one key, oldest first. -/
def record_outcomes (agg : DecisionAggregator)
    (predictor_type vulnerability_type : String)
    (outcomes : List (ℚ × Bool)) : DecisionAggregator :=
  outcomes.foldl
    (fun a ob => record_outcome a predictor_type vulnerability_type ob.1 ob.2) agg

/-! ## feature_extraction.py -/

/-- `SQL_ERROR_PATTERNS` of `HTTPResponseFeatureExtractor`:
(regex pattern, feature name, weight). -/
def SQL_ERROR_PATTERNS : List (String × String × ℚ) :=
  [("SQL syntax.*MySQL", "mysql_syntax_error", 0.9),
   ("ORA-\\d+", "oracle_error", 0.85),
   ("SQLSTATE", "sqlstate_error", 0.8),
   ("syntax error at or near", "postgres_error", 0.85),
   ("Microsoft SQL Native Client", "mssql_error", 0.85),
   ("unclosed quotation mark", "quote_error", 0.7),
   ("you have an error in your sql", "generic_sql_error", 0.75)]

/-- `XSS_PATTERNS` of `HTTPResponseFeatureExtractor`. -/
def XSS_PATTERNS : List (String × String × ℚ) :=
  [("<script[^>]*>", "script_tag_reflection", 0.6),
   ("javascript:", "javascript_protocol", 0.5),
   ("on\\w+\\s*=", "event_handler", 0.4)]

/-- The four `security_headers` names checked by the HTTP extractor. -/
def securityHeaders : List String :=
  ["x-content-type-options", "x-frame-options",
   "content-security-policy", "strict-transport-security"]

/-- The five `error_keywords` checked by the HTTP extractor. -/
def errorKeywords : List String :=
  ["exception", "stack trace", "debug", "line ", "file "]

/-- Python `kw in body`: substring containment. -/
def strContains (s pat : String) : Bool :=
  decide (pat.data <:+: s.data)

/-- The fields the HTTP extractor reads out of `raw_data`, after the
defaulting `raw_data.get` calls (`body` default `""`, `headers` default
`{}`, `status_code` default `0`, `response_time_ms` default `0`). -/
structure HTTPRawData where
  body : String
  headers : List (String × String)
  status_code : ℤ
  response_time_ms : ℚ

/-- `HTTPResponseFeatureExtractor.extract`.  The Python feature dict is
modelled as the list of key/value insertions, and the `re.search` calls of
the standard-library regex engine are modelled by the oracle `search`
(pattern, lowered body ↦ match found).  Pattern features are inserted for
exactly the matching patterns; the remaining features are always present. -/
def HTTPResponseFeatureExtractor.extract (search : String → String → Bool)
    (raw : HTTPRawData) : List (String × ℚ) :=
  let body := raw.body.toLower
  let sqli := (SQL_ERROR_PATTERNS.filter (fun pnw => search pnw.1 body)).map
    (fun pnw => ("sqli_" ++ pnw.2.1, pnw.2.2))
  let xss := (XSS_PATTERNS.filter (fun pnw => search pnw.1 body)).map
    (fun pnw => ("xss_" ++ pnw.2.1, pnw.2.2))
  let headers_lower := raw.headers.map (fun kv => kv.1.toLower)
  sqli ++ xss ++
    [("status_code_5xx",
        if 500 ≤ raw.status_code ∧ raw.status_code < 600 then 1.0 else 0.0),
     ("status_code_4xx",
        if 400 ≤ raw.status_code ∧ raw.status_code < 500 then 1.0 else 0.0),
     ("response_length", min ((body.length : ℚ) / 100000) 1.0),
     ("response_time_slow", if raw.response_time_ms > 5000 then 1.0 else 0.0),
     ("response_time_very_slow", if raw.response_time_ms > 10000 then 1.0 else 0.0),
     ("response_time_normalized", min (raw.response_time_ms / 30000) 1.0),
     ("security_headers_count",
        ((securityHeaders.filter (fun h => headers_lower.contains h)).length : ℚ) /
          (securityHeaders.length : ℚ)),
     ("error_verbosity",
        ((errorKeywords.filter (fun kw => strContains body kw)).length : ℚ) /
          (errorKeywords.length : ℚ))]

/-- The fields the timing extractor reads out of `raw_data`, after the
defaulting `raw_data.get` calls (`baseline_ms` default 100, `test_ms`
default 100, `expected_delay_ms` default 5000, `test_times` default
`[test_time]`, kept optional here to model its absence). -/
structure TimingRawData where
  baseline_ms : ℚ
  test_ms : ℚ
  expected_delay_ms : ℚ
  test_times : Option (List ℚ)

/-- `TimingFeatureExtractor.extract`. -/
def TimingFeatureExtractor.extract (raw : TimingRawData) : List (String × ℚ) :=
  let time_diff := raw.test_ms - raw.baseline_ms
  let base := [("time_diff_ms", min (time_diff / 30000) 1.0)]
  let delay :=
    if raw.expected_delay_ms > 0 then
      let delay_accuracy :=
        1 - |time_diff - raw.expected_delay_ms| / raw.expected_delay_ms
      [("delay_accuracy", max 0 (min delay_accuracy 1.0))]
    else []
  let test_times := raw.test_times.getD [raw.test_ms]
  let consistency :=
    if 1 < test_times.length then
      let variance :=
        ((test_times.map
          (fun t => (t - test_times.sum / (test_times.length : ℚ)) ^ 2)).sum) /
          (test_times.length : ℚ)
      [("timing_consistency", 1.0 / (1.0 + variance / 1000))]
    else []
  base ++ delay ++ consistency

/-! ## Theorems -/

/-- C7: `_should_use_llm` skips the expensive predictor (returns `false`)
exactly when the maximum rule-based confidence across the observations is
strictly greater than 0.9 or strictly less than 0.1, and escalates
otherwise; rule-based confidences [0.95] give skip, [0.95, 0.05] give skip,
and [0.5] gives escalate. -/
theorem c7_escalation_gate_skips_exactly_outside_middle_band :
    (∀ observations : List ObservationPredictions,
      should_use_llm observations = false ↔
        maxRuleConf observations > 0.9 ∨ maxRuleConf observations < 0.1) ∧
    should_use_llm [⟨[("rule_based", 0.95)]⟩] = false ∧
    should_use_llm [⟨[("rule_based", 0.95)]⟩, ⟨[("rule_based", 0.05)]⟩] = false ∧
    should_use_llm [⟨[("rule_based", 0.5)]⟩] = true := by
  refine ⟨fun observations => ?_,
    by norm_num [should_use_llm, maxRuleConf, pyMaxD, dictGetD, dictGet, List.find?],
    by norm_num [should_use_llm, maxRuleConf, pyMaxD, dictGetD, dictGet, List.find?],
    by norm_num [should_use_llm, maxRuleConf, pyMaxD, dictGetD, dictGet, List.find?]⟩
  by_cases h : maxRuleConf observations > 0.9 ∨ maxRuleConf observations < 0.1 <;>
    simp [should_use_llm, h]

/-- C8: `can_make_request(estimated_cost)` is true iff
`todaySpend + estimated_cost ≤ dailyBudget`, where `todaySpend` sums the
ledger entries of the current UTC date; with budget 5.0 and a ledger whose
spend today is 4.5, a request of 0.4 passes and one of 0.6 does not. -/
theorem c8_budget_gate_daily_spend_plus_estimate_within_budget :
    (∀ (ledger : List AIUsageLog) (today : ℤ) (daily_budget estimated_cost : ℚ),
      can_make_request ledger today daily_budget estimated_cost = true ↔
        get_daily_spend ledger today + estimated_cost ≤ daily_budget) ∧
    get_daily_spend
      [⟨"sonnet", 100, 50, 3, "x", 0⟩, ⟨"haiku", 10, 5, 1.5, "y", 0⟩,
       ⟨"opus", 80, 40, 2, "z", 1⟩] 0 = 4.5 ∧
    can_make_request
      [⟨"sonnet", 100, 50, 3, "x", 0⟩, ⟨"haiku", 10, 5, 1.5, "y", 0⟩,
       ⟨"opus", 80, 40, 2, "z", 1⟩] 0 5.0 0.4 = true ∧
    can_make_request
      [⟨"sonnet", 100, 50, 3, "x", 0⟩, ⟨"haiku", 10, 5, 1.5, "y", 0⟩,
       ⟨"opus", 80, 40, 2, "z", 1⟩] 0 5.0 0.6 = false := by
  refine ⟨fun ledger today daily_budget estimated_cost => ?_,
    by norm_num [get_daily_spend, List.filter_cons],
    by norm_num [can_make_request, get_daily_spend, List.filter_cons],
    by norm_num [can_make_request, get_daily_spend, List.filter_cons]⟩
  simp [can_make_request]

/-- C1 counterexample: for `task_type = "tool_output_summary"` with a list
of 3 observations, `classify_task` does not return the cheapest tier
(haiku): the token estimate 3·500 + 900 = 2400 exceeds haiku's 2000-token
budget. -/
theorem c1_counterexample_three_observations_not_haiku :
    (classify_task "tool_output_summary" ["obs1", "obs2", "obs3"] []).tier ≠
      ModelTier.haiku := by
  simp [classify_task, estimate_tokens, List.find?, TIER_CRITERIA, obsWithin]

/-- C1 amended: for `task_type = "tool_output_summary"` with 3 observations
the token estimate is 3·500 + 900 = 2400, which exceeds haiku's 2000-token
budget, and since no later tier lists that task type, `classify_task`
returns the default Sonnet classification; with at most 2 observations the
cheapest tier (haiku) is returned. -/
theorem c1_router_tool_output_summary_three_observations_default_sonnet :
    (∀ (observations : List String) (context : List (String × String)),
      observations.length = 3 →
        estimate_tokens observations context = 2400 ∧
        2000 < estimate_tokens observations context ∧
        (classify_task "tool_output_summary" observations context).tier =
          ModelTier.sonnet ∧
        (classify_task "tool_output_summary" observations context).reasoning =
          "Default to Sonnet for unclassified task") ∧
    (∀ (observations : List String) (context : List (String × String)),
      observations.length ≤ 2 →
        (classify_task "tool_output_summary" observations context).tier =
          ModelTier.haiku) := by
  constructor
  · intro observations context h
    have ht : estimate_tokens observations context = 2400 := by
      simp [estimate_tokens, h]
    refine ⟨ht, by omega, ?_, ?_⟩ <;>
      · simp [classify_task, estimate_tokens, h, List.find?, TIER_CRITERIA, obsWithin]
  · intro observations context h
    rcases observations with _ | ⟨a, _ | ⟨b, _ | ⟨c, tl⟩⟩⟩
    · simp [classify_task, estimate_tokens, List.find?, TIER_CRITERIA, obsWithin]
    · simp [classify_task, estimate_tokens, List.find?, TIER_CRITERIA, obsWithin]
    · simp [classify_task, estimate_tokens, List.find?, TIER_CRITERIA, obsWithin]
    · simp only [List.length_cons] at h
      omega

/-- C1 witness: the amended claim applied to concrete observation lists of
lengths 3 and 1. -/
theorem c1_router_witness :
    (["o1", "o2", "o3"] : List String).length = 3 ∧
    (classify_task "tool_output_summary" ["o1", "o2", "o3"] []).tier =
      ModelTier.sonnet ∧
    (["o1"] : List String).length ≤ 2 ∧
    (classify_task "tool_output_summary" ["o1"] []).tier = ModelTier.haiku :=
  ⟨rfl,
   (c1_router_tool_output_summary_three_observations_default_sonnet.1
      ["o1", "o2", "o3"] [] rfl).2.2.1,
   by simp,
   c1_router_tool_output_summary_three_observations_default_sonnet.2
      ["o1"] [] (by simp)⟩

/-- The fraction of `true` entries among the last at most 50 outcomes:
`sum(history[-50:]) / len(history[-50:])` from `_get_dynamic_weight`. -/
def recentAccuracy (history : List Bool) : ℚ :=
  (countTrue (lastN 50 history) : ℚ) / ((lastN 50 history).length : ℚ)

/-- The accuracy fraction is between 0 and 1. -/
theorem recentAccuracy_mem_unit (history : List Bool) :
    0 ≤ recentAccuracy history ∧ recentAccuracy history ≤ 1 := by
  unfold recentAccuracy
  constructor
  · positivity
  · rcases Nat.eq_zero_or_pos (lastN 50 history).length with h | h
    · simp [h]
    · rw [div_le_one (by exact_mod_cast h)]
      exact_mod_cast List.length_filter_le _ _

/-- C4: with at least 10 recorded outcomes for a key, the dynamic weight is
the base weight times `0.5 + recent_accuracy * 1.5` (a multiplier in
[0.5, 2]) where `recent_accuracy` is the fraction of true entries among the
last at most 50 outcomes; with fewer than 10 (including a missing key) the
base weight is used unmodified.  After 10 recorded outcomes with 9 correct,
the dynamic weight is 0.3 · 1.85 = 0.555, strictly above the base 0.3. -/
theorem c4_dynamic_weight_scales_base_by_recent_accuracy :
    (∀ (agg : DecisionAggregator) (predictor_type vulnerability_type : String)
       (history : List Bool),
      dictGet agg.accuracy_history (predictor_type ++ ":" ++ vulnerability_type) =
          some history →
        (10 ≤ history.length →
          get_dynamic_weight agg predictor_type vulnerability_type =
            dictGetD agg.weights predictor_type 0.33 *
              (0.5 + recentAccuracy history * 1.5) ∧
          0.5 ≤ 0.5 + recentAccuracy history * 1.5 ∧
          0.5 + recentAccuracy history * 1.5 ≤ 2) ∧
        (history.length < 10 →
          get_dynamic_weight agg predictor_type vulnerability_type =
            dictGetD agg.weights predictor_type 0.33)) ∧
    (∀ (agg : DecisionAggregator) (predictor_type vulnerability_type : String),
      dictGet agg.accuracy_history (predictor_type ++ ":" ++ vulnerability_type) =
          none →
        get_dynamic_weight agg predictor_type vulnerability_type =
          dictGetD agg.weights predictor_type 0.33) ∧
    get_dynamic_weight
        (record_outcomes ⟨defaultWeights, []⟩ "rule_based" "sqli"
          (List.replicate 9 ((0.9 : ℚ), true) ++ [((0.9 : ℚ), false)]))
        "rule_based" "sqli" = 0.3 * 1.85 ∧
    dictGetD defaultWeights "rule_based" 0.33 < 0.3 * 1.85 := by
  refine ⟨fun agg predictor_type vulnerability_type history hh => ⟨fun hlen => ?_,
      fun hlen => ?_⟩,
    fun agg predictor_type vulnerability_type hh => ?_, ?_, ?_⟩
  · obtain ⟨hacc0, hacc1⟩ := recentAccuracy_mem_unit history
    refine ⟨?_, by linarith, by linarith⟩
    simp [get_dynamic_weight, hh, hlen, recentAccuracy]
  · simp [get_dynamic_weight, hh, Nat.not_le.mpr hlen]
  · simp [get_dynamic_weight, hh]
  · norm_num [record_outcomes, record_outcome, List.replicate, dictSet, dictGet,
      dictGetD, directionallyCorrect, lastN, countTrue, get_dynamic_weight,
      defaultWeights, List.find?, List.filter]
  · norm_num [dictGetD, dictGet, defaultWeights, List.find?]

/-- C4 witness: the general parts of the claim applied to a concrete
aggregator whose key `"rule_based:sqli"` has 10 recorded outcomes with 9
correct. -/
theorem c4_dynamic_weight_witness :
    get_dynamic_weight
        ⟨defaultWeights, [("rule_based:sqli",
          List.replicate 9 true ++ [false])]⟩ "rule_based" "sqli" =
      dictGetD defaultWeights "rule_based" 0.33 *
        (0.5 + recentAccuracy (List.replicate 9 true ++ [false]) * 1.5) ∧
    get_dynamic_weight ⟨defaultWeights, [("rule_based:sqli", [true])]⟩
        "rule_based" "sqli" = dictGetD defaultWeights "rule_based" 0.33 ∧
    get_dynamic_weight ⟨defaultWeights, []⟩ "ml_model" "xss" =
      dictGetD defaultWeights "ml_model" 0.33 := by
  refine ⟨?_, ?_, ?_⟩
  · exact ((c4_dynamic_weight_scales_base_by_recent_accuracy.1 _ "rule_based" "sqli"
      (List.replicate 9 true ++ [false]) (by simp [dictGet, List.find?])).1
      (by simp [List.replicate])).1
  · exact (c4_dynamic_weight_scales_base_by_recent_accuracy.1 _ "rule_based" "sqli"
      [true] (by simp [dictGet, List.find?])).2 (by norm_num)
  · exact c4_dynamic_weight_scales_base_by_recent_accuracy.2.1 _ "ml_model" "xss"
      (by simp [dictGet, List.find?])

/-- Writing a key makes it readable: `dictGet (dictSet d k v) k = some v`. -/
theorem dictGet_dictSet_self {α : Type} (d : List (String × α)) (k : String)
    (v : α) : dictGet (dictSet d k v) k = some v := by
  induction d with
  | nil => simp [dictGet, dictSet, List.find?]
  | cons kv rest ih =>
    simp only [dictSet]
    by_cases h : kv.1 == k
    · rw [if_pos h]
      simp [dictGet, List.find?]
    · rw [if_neg h]
      simpa [dictGet, List.find?, h] using ih

/-- Unfolding one `record_outcome` call at its own key. -/
theorem record_outcome_dictGet (agg : DecisionAggregator)
    (predictor_type vulnerability_type : String) (predicted_confidence : ℚ)
    (was_correct : Bool) :
    dictGet (record_outcome agg predictor_type vulnerability_type
        predicted_confidence was_correct).accuracy_history
      (predictor_type ++ ":" ++ vulnerability_type) =
    some (
      let appended :=
        ((dictGet agg.accuracy_history
            (predictor_type ++ ":" ++ vulnerability_type)).getD []) ++
          [directionallyCorrect predicted_confidence was_correct]
      if 1000 < appended.length then lastN 500 appended else appended) := by
  simp only [record_outcome, dictGet_dictSet_self]

/-- Below the cap, `record_outcomes` on a fresh key just accumulates the
directional-correctness booleans in order. -/
theorem record_outcomes_getD_of_le_1000 (agg : DecisionAggregator)
    (predictor_type vulnerability_type : String) (outcomes : List (ℚ × Bool))
    (h0 : dictGet agg.accuracy_history
      (predictor_type ++ ":" ++ vulnerability_type) = none)
    (hlen : outcomes.length ≤ 1000) :
    (dictGet (record_outcomes agg predictor_type vulnerability_type
        outcomes).accuracy_history
      (predictor_type ++ ":" ++ vulnerability_type)).getD [] =
    outcomes.map (fun ob => directionallyCorrect ob.1 ob.2) := by
  induction outcomes using List.reverseRecOn with
  | nil => simp [record_outcomes, h0]
  | append_singleton outs o ih =>
    have houts : outs.length ≤ 1000 := by
      simp only [List.length_append, List.length_singleton] at hlen
      omega
    have ih' := ih houts
    simp only [record_outcomes, List.foldl_append, List.foldl_cons,
      List.foldl_nil] at ih' ⊢
    rw [record_outcome_dictGet]
    simp only [ih']
    have hle : outs.length + 1 ≤ 1000 := by
      simp only [List.length_append, List.length_singleton] at hlen
      omega
    rw [if_neg (by simp only [List.length_append, List.length_map,
      List.length_singleton]; omega)]
    simp

/-- C6: one `record_outcome` call appends `(predicted_confidence ≥ 0.5) ==
was_correct` to the key's history and trims to the most recent 500 entries
exactly when the appended length exceeds 1000; consequently, 1001 recorded
outcomes on a fresh key leave a stored history that is the most recent 500
of the 1001 directional-correctness booleans — `drop 501` of them — with
length exactly 500. -/
theorem c6_record_outcome_appends_and_trims_to_recent_500 :
    (∀ (agg : DecisionAggregator)
       (predictor_type vulnerability_type : String)
       (predicted_confidence : ℚ) (was_correct : Bool),
      dictGet (record_outcome agg predictor_type vulnerability_type
          predicted_confidence was_correct).accuracy_history
        (predictor_type ++ ":" ++ vulnerability_type) =
      some (
        let appended :=
          ((dictGet agg.accuracy_history
              (predictor_type ++ ":" ++ vulnerability_type)).getD []) ++
            [(decide (predicted_confidence ≥ 0.5) == was_correct)]
        if 1000 < appended.length then lastN 500 appended else appended)) ∧
    (∀ (agg : DecisionAggregator)
       (predictor_type vulnerability_type : String)
       (outcomes : List (ℚ × Bool)),
      dictGet agg.accuracy_history
          (predictor_type ++ ":" ++ vulnerability_type) = none →
      outcomes.length = 1001 →
        dictGet (record_outcomes agg predictor_type vulnerability_type
            outcomes).accuracy_history
          (predictor_type ++ ":" ++ vulnerability_type) =
        some ((outcomes.map (fun ob => directionallyCorrect ob.1 ob.2)).drop 501) ∧
        ((outcomes.map (fun ob => directionallyCorrect ob.1 ob.2)).drop 501) =
          lastN 500 (outcomes.map (fun ob => directionallyCorrect ob.1 ob.2)) ∧
        ((outcomes.map (fun ob => directionallyCorrect ob.1 ob.2)).drop 501).length
          = 500) := by
  constructor
  · intro agg predictor_type vulnerability_type predicted_confidence was_correct
    exact record_outcome_dictGet agg predictor_type vulnerability_type
      predicted_confidence was_correct
  · intro agg predictor_type vulnerability_type outcomes h0 hlen
    rcases outcomes.eq_nil_or_concat with rfl | ⟨outs, o, rfl⟩
    · simp at hlen
    have houts : outs.length = 1000 := by
      simp only [List.concat_eq_append, List.length_append,
        List.length_singleton] at hlen
      omega
    have ih :=
      record_outcomes_getD_of_le_1000 agg predictor_type vulnerability_type outs h0
        (by omega)
    simp only [List.concat_eq_append, record_outcomes, List.foldl_append,
      List.foldl_cons, List.foldl_nil] at ih ⊢
    rw [record_outcome_dictGet]
    simp only [ih]
    have hlena :
        (outs.map (fun ob => directionallyCorrect ob.1 ob.2) ++
          [directionallyCorrect o.1 o.2]).length = 1001 := by
      simp [houts]
    rw [if_pos (by omega)]
    have hmap :
        outs.map (fun ob => directionallyCorrect ob.1 ob.2) ++
            [directionallyCorrect o.1 o.2] =
          (outs ++ [o]).map (fun ob => directionallyCorrect ob.1 ob.2) := by
      simp
    have hlenm :
        ((outs ++ [o]).map (fun ob => directionallyCorrect ob.1 ob.2)).length =
          1001 := by
      simp [houts]
    refine ⟨?_, ?_, ?_⟩
    · rw [hmap]
      unfold lastN
      rw [hlenm]
    · unfold lastN
      rw [hlenm]
    · rw [List.length_drop, hlenm]

/-- C6 witness: 1001 identical outcomes on the fresh key
`"rule_based:sqli"` of a default aggregator. -/
theorem c6_record_outcome_witness :
    dictGet (DecisionAggregator.mk defaultWeights []).accuracy_history
        ("rule_based" ++ ":" ++ "sqli") = none ∧
    (List.replicate 1001 ((0.9 : ℚ), true)).length = 1001 ∧
    (((List.replicate 1001 ((0.9 : ℚ), true)).map
        (fun ob => directionallyCorrect ob.1 ob.2)).drop 501).length = 500 := by
  refine ⟨by simp [dictGet, List.find?], by simp, ?_⟩
  exact (c6_record_outcome_appends_and_trims_to_recent_500.2
    ⟨defaultWeights, []⟩ "rule_based" "sqli" (List.replicate 1001 ((0.9 : ℚ), true))
    (by simp [dictGet, List.find?]) (by simp)).2.2

/-- `dictGet` on the empty dict. -/
theorem dictGet_nil {α : Type} (k : String) :
    dictGet ([] : List (String × α)) k = none := rfl

/-- One step of `dictGet` lookup. -/
theorem dictGet_cons {α : Type} (k' : String) (v : α) (d : List (String × α))
    (k : String) :
    dictGet ((k', v) :: d) k = if k' == k then some v else dictGet d k := by
  by_cases h : k' == k <;> simp [dictGet, List.find?, h]

/-- C9: when no prediction matches the queried vulnerability type (the empty
list included), `aggregate` returns confidence 0, agreement 0 and action
"ignore" rather than failing. -/
theorem c9_aggregate_non_matching_returns_zero_ignore
    (agg : DecisionAggregator) (predictions : List Prediction)
    (vulnerability_type : String)
    (h : ∀ p ∈ predictions, p.vulnerability_type ≠ vulnerability_type) :
    (aggregate agg predictions vulnerability_type).confidence = 0 ∧
    (aggregate agg predictions vulnerability_type).predictor_agreement = 0 ∧
    (aggregate agg predictions vulnerability_type).recommended_action =
      "ignore" := by
  rcases predictions with _ | ⟨p, ps⟩
  · simp [aggregate]
  · have hfil : (p :: ps).filter
        (fun q => q.vulnerability_type == vulnerability_type) = [] := by
      rw [List.filter_eq_nil_iff]
      intro q hq
      simpa using h q hq
    simp [aggregate, hfil]

/-- C9 witness: a single prediction for "xss" queried as "sqli". -/
theorem c9_aggregate_witness :
    (aggregate ⟨defaultWeights, []⟩
        [⟨.rule_based, "rules", "xss", 0.6, none, 0⟩] "sqli").confidence = 0 ∧
    (aggregate ⟨defaultWeights, []⟩
        [⟨.rule_based, "rules", "xss", 0.6, none, 0⟩] "sqli").predictor_agreement
      = 0 ∧
    (aggregate ⟨defaultWeights, []⟩
        [⟨.rule_based, "rules", "xss", 0.6, none, 0⟩] "sqli").recommended_action
      = "ignore" :=
  c9_aggregate_non_matching_returns_zero_ignore ⟨defaultWeights, []⟩
    [⟨.rule_based, "rules", "xss", 0.6, none, 0⟩] "sqli" (by simp)

/-- C10: a predictor type absent from the weight dict gets the hard-coded
fallback base weight 0.33 (not the documented 0.3/0.4/0.3 defaults and not
an error), and its predictions still contribute with that weight: with
weights `{"rule_based": 0.3}` and no history, an llm prediction of
confidence 0.9 next to a rule-based one of 0.5 yields
(0.5·0.3 + 0.9·0.33) / (0.3 + 0.33). -/
theorem c10_missing_predictor_type_falls_back_to_weight_033 :
    (∀ (agg : DecisionAggregator) (predictor_type vulnerability_type : String),
      dictGet agg.weights predictor_type = none →
      dictGet agg.accuracy_history
          (predictor_type ++ ":" ++ vulnerability_type) = none →
        get_dynamic_weight agg predictor_type vulnerability_type = 0.33) ∧
    dictGet [(("rule_based" : String), (0.3 : ℚ))] "llm" = none ∧
    (aggregate ⟨[("rule_based", 0.3)], []⟩
        [⟨.rule_based, "rules", "sqli", 0.5, none, 0⟩,
         ⟨.llm, "claude", "sqli", 0.9, none, 0⟩] "sqli").confidence =
      (0.5 * 0.3 + 0.9 * 0.33) / (0.3 + 0.33) := by
  refine ⟨fun agg predictor_type vulnerability_type hw hh => ?_,
    by simp [dictGet_cons, dictGet_nil], ?_⟩
  · simp [get_dynamic_weight, hw, hh, dictGetD]
  · simp [aggregate, get_dynamic_weight, dictGetD, dictGet_cons, dictGet_nil,
      List.filter_cons, PredictorType.value]
    norm_num

/-- C10 witness: the fallback-weight equation at the concrete weight dict
`{"rule_based": 0.3}` with predictor type "llm". -/
theorem c10_missing_predictor_type_witness :
    get_dynamic_weight ⟨[("rule_based", 0.3)], []⟩ "llm" "sqli" = 0.33 :=
  c10_missing_predictor_type_falls_back_to_weight_033.1
    ⟨[("rule_based", 0.3)], []⟩ "llm" "sqli"
    (by simp [dictGet_cons, dictGet_nil]) (by simp [dictGet_nil])

/-- C5: on `[(rule_based, 0.9), (llm, 0.7)]` for one vulnerability type,
with no history and the default base weights, `aggregate` returns
confidence (0.9·0.3 + 0.7·0.3)/0.6 = 0.8, agreement 1 − std([0.9, 0.7]) =
0.9, and — since confidence ≥ 0.8 and agreement ≥ 0.7 — action "report";
the breakdown lists both predictors with their raw confidences. -/
theorem c5_two_predictor_report_case :
    (aggregate ⟨defaultWeights, []⟩
        [⟨.rule_based, "rules", "sqli", 0.9, none, 0⟩,
         ⟨.llm, "claude", "sqli", 0.7, none, 0⟩] "sqli").confidence = 0.8 ∧
    (aggregate ⟨defaultWeights, []⟩
        [⟨.rule_based, "rules", "sqli", 0.9, none, 0⟩,
         ⟨.llm, "claude", "sqli", 0.7, none, 0⟩] "sqli").predictor_agreement
      = 0.9 ∧
    (aggregate ⟨defaultWeights, []⟩
        [⟨.rule_based, "rules", "sqli", 0.9, none, 0⟩,
         ⟨.llm, "claude", "sqli", 0.7, none, 0⟩] "sqli").recommended_action
      = "report" ∧
    (aggregate ⟨defaultWeights, []⟩
        [⟨.rule_based, "rules", "sqli", 0.9, none, 0⟩,
         ⟨.llm, "claude", "sqli", 0.7, none, 0⟩] "sqli").individual_predictions
      = [("rules", 0.9), ("claude", 0.7)] := by
  have hstd : npStd [(0.9 : ℚ), 0.7] = 1 / 10 := by
    have hv : popVariance [(0.9 : ℚ), 0.7] = 1 / 100 := by
      norm_num [popVariance]
    unfold npStd
    rw [hv]
    rw [show ((1 / 100 : ℚ) : ℝ) = (1 / 10 : ℝ) ^ 2 by norm_num,
      Real.sqrt_sq (by norm_num : (0 : ℝ) ≤ 1 / 10)]
  refine ⟨?_, ?_, ?_, ?_⟩ <;>
    · simp [aggregate, get_dynamic_weight, dictGetD, dictGet_cons, dictGet_nil,
        defaultWeights, List.filter_cons, PredictorType.value, hstd]
      try norm_num

/-- `≤` on ℚ is antisymmetric, as an instance for the `min?` lemmas. -/
instance : Std.Antisymm (fun x1 x2 : ℚ => x1 ≤ x2) :=
  ⟨fun h h2 => le_antisymm h h2⟩

/-- `List.min?` characterization over ℚ. -/
theorem min?_mem_and_le {l : List ℚ} {a : ℚ} (h : l.min? = some a) :
    a ∈ l ∧ ∀ b ∈ l, a ≤ b :=
  (List.min?_eq_some_iff (fun _ => le_refl _) (fun _ _ => min_choice _ _)
    (fun _ _ _ => le_min_iff)).mp h

/-- `List.max?` characterization over ℚ. -/
theorem max?_mem_and_ge {l : List ℚ} {a : ℚ} (h : l.max? = some a) :
    a ∈ l ∧ ∀ b ∈ l, b ≤ a :=
  (List.max?_eq_some_iff (fun _ => le_refl _) (fun _ _ => max_choice _ _)
    (fun _ _ _ => max_le_iff)).mp h

/-- A dict of positive values and a positive default give a positive
`dictGetD`. -/
theorem dictGetD_pos {d : List (String × ℚ)} (k : String) {default : ℚ}
    (hd : ∀ kv ∈ d, 0 < kv.2) (hdef : 0 < default) : 0 < dictGetD d k default := by
  unfold dictGetD dictGet
  cases hfind : d.find? (fun kv => kv.1 == k) with
  | none => simpa using hdef
  | some kv => simpa using hd kv (List.mem_of_find?_eq_some hfind)

/-- With positive base weights the accuracy adjustment can halve a weight at
most, so every dynamic weight stays strictly positive. -/
theorem get_dynamic_weight_pos (agg : DecisionAggregator)
    (hw : ∀ kv ∈ agg.weights, 0 < kv.2)
    (predictor_type vulnerability_type : String) :
    0 < get_dynamic_weight agg predictor_type vulnerability_type := by
  have hbase : 0 < dictGetD agg.weights predictor_type 0.33 :=
    dictGetD_pos predictor_type hw (by norm_num)
  unfold get_dynamic_weight
  dsimp only
  split
  · rename_i history heq
    by_cases hlen : 10 ≤ history.length
    · rw [if_pos hlen]
      have hacc : 0 ≤ (countTrue (lastN 50 history) : ℚ) /
          ((lastN 50 history).length : ℚ) := by positivity
      have hadj : 0 < (0.5 : ℚ) + (countTrue (lastN 50 history) : ℚ) /
          ((lastN 50 history).length : ℚ) * 1.5 := by nlinarith
      exact mul_pos hbase hadj
    · rw [if_neg hlen]
      exact hbase
  · exact hbase

/-- Upper bound on the weighted confidence sum. -/
theorem weighted_sum_le_hi (rel : List Prediction) (w : Prediction → ℚ)
    (hi : ℚ) (hc : ∀ p ∈ rel, p.confidence ≤ hi) (hw : ∀ p ∈ rel, 0 ≤ w p) :
    (rel.map (fun p => p.confidence * w p)).sum ≤ hi * (rel.map w).sum := by
  induction rel with
  | nil => simp
  | cons p ps ih =>
    simp only [List.map_cons, List.sum_cons, mul_add]
    have h1 : p.confidence * w p ≤ hi * w p :=
      mul_le_mul_of_nonneg_right (hc p (by simp)) (hw p (by simp))
    have h2 := ih (fun q hq => hc q (by simp [hq])) (fun q hq => hw q (by simp [hq]))
    linarith

/-- Lower bound on the weighted confidence sum. -/
theorem lo_le_weighted_sum (rel : List Prediction) (w : Prediction → ℚ)
    (lo : ℚ) (hc : ∀ p ∈ rel, lo ≤ p.confidence) (hw : ∀ p ∈ rel, 0 ≤ w p) :
    lo * (rel.map w).sum ≤ (rel.map (fun p => p.confidence * w p)).sum := by
  induction rel with
  | nil => simp
  | cons p ps ih =>
    simp only [List.map_cons, List.sum_cons, mul_add]
    have h1 : lo * w p ≤ p.confidence * w p :=
      mul_le_mul_of_nonneg_right (hc p (by simp)) (hw p (by simp))
    have h2 := ih (fun q hq => hc q (by simp [hq])) (fun q hq => hw q (by simp [hq]))
    linarith

/-- A nonempty list of positive weights has positive sum. -/
theorem weight_sum_pos (rel : List Prediction) (w : Prediction → ℚ)
    (hw : ∀ p ∈ rel, 0 < w p) (hne : rel ≠ []) : 0 < (rel.map w).sum := by
  rcases rel with _ | ⟨p, ps⟩
  · exact absurd rfl hne
  · simp only [List.map_cons, List.sum_cons]
    have h1 : 0 < w p := hw p (by simp)
    have h2 : 0 ≤ (ps.map w).sum :=
      List.sum_nonneg (by
        intro x hx
        obtain ⟨q, hq, rfl⟩ := List.mem_map.mp hx
        exact le_of_lt (hw q (by simp [hq])))
    linarith

/-- The confidence returned by `aggregate` once both emptiness guards have
passed: the weighted average over the filtered predictions, or 0 when the
weight sum is not positive. -/
theorem aggregate_confidence_formula (agg : DecisionAggregator)
    (predictions : List Prediction) (vulnerability_type : String)
    (hne : predictions ≠ [])
    (hrel : predictions.filter
      (fun p => p.vulnerability_type == vulnerability_type) ≠ []) :
    (aggregate agg predictions vulnerability_type).confidence =
      (if 0 < ((predictions.filter
            (fun p => p.vulnerability_type == vulnerability_type)).map
              (fun p => get_dynamic_weight agg p.predictor_type.value
                vulnerability_type)).sum
        then ((predictions.filter
            (fun p => p.vulnerability_type == vulnerability_type)).map
              (fun p => p.confidence * get_dynamic_weight agg
                p.predictor_type.value vulnerability_type)).sum /
          ((predictions.filter
            (fun p => p.vulnerability_type == vulnerability_type)).map
              (fun p => get_dynamic_weight agg p.predictor_type.value
                vulnerability_type)).sum
        else 0) := by
  unfold aggregate
  rw [if_neg (by simpa [List.isEmpty_iff] using hne),
    if_neg (by simpa [List.isEmpty_iff] using hrel)]

/-- The weighted average of confidences lies between any entry-wise bounds,
provided every weight is positive and the filtered list is nonempty. -/
theorem aggregate_confidence_between (agg : DecisionAggregator)
    (predictions : List Prediction) (vulnerability_type : String) (lo hi : ℚ)
    (hw : ∀ kv ∈ agg.weights, 0 < kv.2)
    (hne : predictions ≠ [])
    (hrel : predictions.filter
      (fun p => p.vulnerability_type == vulnerability_type) ≠ [])
    (hb : ∀ p ∈ predictions.filter
      (fun p => p.vulnerability_type == vulnerability_type),
        lo ≤ p.confidence ∧ p.confidence ≤ hi) :
    lo ≤ (aggregate agg predictions vulnerability_type).confidence ∧
    (aggregate agg predictions vulnerability_type).confidence ≤ hi := by
  set rel := predictions.filter
    (fun p => p.vulnerability_type == vulnerability_type) with hreldef
  set w := fun p : Prediction =>
    get_dynamic_weight agg p.predictor_type.value vulnerability_type with hwdef
  have hwpos : ∀ p ∈ rel, 0 < w p := fun p _ =>
    get_dynamic_weight_pos agg hw p.predictor_type.value vulnerability_type
  have hsum : 0 < (rel.map w).sum := weight_sum_pos rel w hwpos hrel
  have hup : (rel.map (fun p => p.confidence * w p)).sum ≤ hi * (rel.map w).sum :=
    weighted_sum_le_hi rel w hi (fun p hp => (hb p hp).2)
      (fun p hp => le_of_lt (hwpos p hp))
  have hdown : lo * (rel.map w).sum ≤
      (rel.map (fun p => p.confidence * w p)).sum :=
    lo_le_weighted_sum rel w lo (fun p hp => (hb p hp).1)
      (fun p hp => le_of_lt (hwpos p hp))
  rw [aggregate_confidence_formula agg predictions vulnerability_type hne hrel]
  rw [← hreldef, ← hwdef, if_pos hsum]
  constructor
  · rw [le_div_iff₀ hsum]
    exact hdown
  · rw [div_le_iff₀ hsum]
    exact hup

/-- Every default base weight is positive. -/
theorem defaultWeights_pos : ∀ kv ∈ defaultWeights, 0 < kv.2 := by
  intro kv hkv
  simp only [defaultWeights, List.mem_cons, List.not_mem_nil, or_false] at hkv
  rcases hkv with rfl | rfl | rfl <;> norm_num

/-- When nothing survives the vulnerability-type filter the confidence is
the early-return 0. -/
theorem aggregate_confidence_zero_of_filter_empty (agg : DecisionAggregator)
    (predictions : List Prediction) (vulnerability_type : String)
    (h2 : predictions.filter
      (fun p => p.vulnerability_type == vulnerability_type) = []) :
    (aggregate agg predictions vulnerability_type).confidence = 0 := by
  rcases predictions with _ | ⟨p, ps⟩
  · simp [aggregate]
  · simp [aggregate, h2]

/-- C3: with the default weight configuration, on a non-empty list of
predictions that all carry the queried vulnerability type and confidences in
[0,1], `aggregate` returns a confidence between the minimum and the maximum
of those confidences; and for any prediction list with confidences in [0,1]
(matching or not, empty or not) the returned confidence lies in [0,1]. -/
theorem c3_aggregate_confidence_between_min_and_max :
    (∀ (agg : DecisionAggregator) (predictions : List Prediction)
       (vulnerability_type : String) (mn mx : ℚ),
      agg.weights = defaultWeights →
      predictions ≠ [] →
      (∀ p ∈ predictions, p.vulnerability_type = vulnerability_type) →
      (∀ p ∈ predictions, 0 ≤ p.confidence ∧ p.confidence ≤ 1) →
      (predictions.map Prediction.confidence).min? = some mn →
      (predictions.map Prediction.confidence).max? = some mx →
        mn ≤ (aggregate agg predictions vulnerability_type).confidence ∧
        (aggregate agg predictions vulnerability_type).confidence ≤ mx) ∧
    (∀ (agg : DecisionAggregator) (predictions : List Prediction)
       (vulnerability_type : String),
      agg.weights = defaultWeights →
      (∀ p ∈ predictions, 0 ≤ p.confidence ∧ p.confidence ≤ 1) →
        0 ≤ (aggregate agg predictions vulnerability_type).confidence ∧
        (aggregate agg predictions vulnerability_type).confidence ≤ 1) := by
  constructor
  · intro agg predictions vulnerability_type mn mx hw hne hmatch hbounds hmn hmx
    have hwpos : ∀ kv ∈ agg.weights, 0 < kv.2 := by
      rw [hw]
      exact defaultWeights_pos
    have hminfo := min?_mem_and_le hmn
    have hmaxfo := max?_mem_and_ge hmx
    have hrel : predictions.filter
        (fun p => p.vulnerability_type == vulnerability_type) = predictions := by
      apply List.filter_eq_self.mpr
      intro p hp
      simpa using hmatch p hp
    apply aggregate_confidence_between agg predictions vulnerability_type mn mx
      hwpos hne (by rw [hrel]; exact hne)
    rw [hrel]
    intro p hp
    exact ⟨hminfo.2 _ (List.mem_map_of_mem _ hp),
      hmaxfo.2 _ (List.mem_map_of_mem _ hp)⟩
  · intro agg predictions vulnerability_type hw hbounds
    have hwpos : ∀ kv ∈ agg.weights, 0 < kv.2 := by
      rw [hw]
      exact defaultWeights_pos
    by_cases h1 : predictions = []
    · subst h1
      simp [aggregate]
    by_cases h2 : predictions.filter
        (fun p => p.vulnerability_type == vulnerability_type) = []
    · rw [aggregate_confidence_zero_of_filter_empty agg predictions
        vulnerability_type h2]
      norm_num
    · exact aggregate_confidence_between agg predictions vulnerability_type 0 1
        hwpos h1 h2 (fun p hp => hbounds p (List.mem_of_mem_filter hp))

/-- C3 witness: a single matching prediction of confidence 1/2 under the
default weights. -/
theorem c3_aggregate_confidence_witness :
    ((1 : ℚ) / 2 ≤ (aggregate ⟨defaultWeights, []⟩
        [⟨.rule_based, "rules", "sqli", 1 / 2, none, 0⟩] "sqli").confidence ∧
      (aggregate ⟨defaultWeights, []⟩
        [⟨.rule_based, "rules", "sqli", 1 / 2, none, 0⟩] "sqli").confidence ≤
        1 / 2) ∧
    (0 ≤ (aggregate ⟨defaultWeights, []⟩
        [⟨.rule_based, "rules", "sqli", 1 / 2, none, 0⟩] "sqli").confidence ∧
      (aggregate ⟨defaultWeights, []⟩
        [⟨.rule_based, "rules", "sqli", 1 / 2, none, 0⟩] "sqli").confidence ≤ 1) :=
  ⟨c3_aggregate_confidence_between_min_and_max.1 ⟨defaultWeights, []⟩
      [⟨.rule_based, "rules", "sqli", 1 / 2, none, 0⟩] "sqli" (1 / 2) (1 / 2)
      rfl (by simp) (by simp) (by norm_num) (by simp [List.min?])
      (by simp [List.max?]),
   c3_aggregate_confidence_between_min_and_max.2 ⟨defaultWeights, []⟩
      [⟨.rule_based, "rules", "sqli", 1 / 2, none, 0⟩] "sqli" rfl (by norm_num)⟩

/-- Every SQL-error pattern weight lies in [0,1]. -/
theorem SQL_ERROR_PATTERNS_weights_unit :
    ∀ pnw ∈ SQL_ERROR_PATTERNS, 0 ≤ pnw.2.2 ∧ pnw.2.2 ≤ 1 := by
  intro pnw hp
  simp only [SQL_ERROR_PATTERNS, List.mem_cons, List.not_mem_nil, or_false] at hp
  rcases hp with rfl | rfl | rfl | rfl | rfl | rfl | rfl <;> norm_num

/-- Every XSS pattern weight lies in [0,1]. -/
theorem XSS_PATTERNS_weights_unit :
    ∀ pnw ∈ XSS_PATTERNS, 0 ≤ pnw.2.2 ∧ pnw.2.2 ≤ 1 := by
  intro pnw hp
  simp only [XSS_PATTERNS, List.mem_cons, List.not_mem_nil, or_false] at hp
  rcases hp with rfl | rfl | rfl <;> norm_num

/-- A ratio of a count over a larger positive count lies in [0,1]. -/
theorem count_ratio_unit (a b : Nat) (hab : a ≤ b) (hb : 0 < b) :
    0 ≤ (a : ℚ) / (b : ℚ) ∧ (a : ℚ) / (b : ℚ) ≤ 1 := by
  constructor
  · positivity
  · rw [div_le_one (by exact_mod_cast hb)]
    exact_mod_cast hab

/-- C2 counterexample: the timing extractor applied to a test that ran 100ms
faster than its baseline emits `time_diff_ms = -1/300`, a value outside
[0,1]. -/
theorem c2_counterexample_negative_time_diff :
    ("time_diff_ms", (-1 : ℚ) / 300) ∈
      TimingFeatureExtractor.extract ⟨200, 100, 5000, none⟩ ∧
    ((-1 : ℚ) / 300) < 0 := by
  refine ⟨?_, by norm_num⟩
  unfold TimingFeatureExtractor.extract
  norm_num


/-- C2 amended: both extractors are total functions whose emitted values all
lie in [0,1], provided the HTTP response time is nonnegative and the timing
test ran no faster than its baseline (`response_time_normalized`, resp.
`time_diff_ms`, go negative otherwise); absent signals are omitted from the
returned mapping rather than raising. -/
theorem c2_extracted_features_lie_in_unit_interval :
    (∀ (search : String → String → Bool) (raw : HTTPRawData),
      0 ≤ raw.response_time_ms →
      ∀ nv ∈ HTTPResponseFeatureExtractor.extract search raw,
        0 ≤ nv.2 ∧ nv.2 ≤ 1) ∧
    (∀ raw : TimingRawData,
      raw.baseline_ms ≤ raw.test_ms →
      ∀ nv ∈ TimingFeatureExtractor.extract raw,
        0 ≤ nv.2 ∧ nv.2 ≤ 1) := by
  constructor
  · intro search raw hrt nv hnv
    unfold HTTPResponseFeatureExtractor.extract at hnv
    simp only [List.mem_append, List.mem_cons, List.not_mem_nil, or_false]
      at hnv
    rcases hnv with ((hm | hm) | hm | hm | hm | hm | hm | hm | hm | hm)
    · obtain ⟨pnw, hp, rfl⟩ := List.mem_map.mp hm
      exact SQL_ERROR_PATTERNS_weights_unit pnw (List.mem_of_mem_filter hp)
    · obtain ⟨pnw, hp, rfl⟩ := List.mem_map.mp hm
      exact XSS_PATTERNS_weights_unit pnw (List.mem_of_mem_filter hp)
    · rw [hm]
      split <;> norm_num
    · rw [hm]
      split <;> norm_num
    · rw [hm]
      refine ⟨le_min (by positivity) (by norm_num), min_le_of_right_le (by norm_num)⟩
    · rw [hm]
      split <;> norm_num
    · rw [hm]
      split <;> norm_num
    · rw [hm]
      refine ⟨le_min (by positivity) (by norm_num), min_le_of_right_le (by norm_num)⟩
    · rw [hm]
      exact count_ratio_unit _ _ (List.length_filter_le _ _)
        (by norm_num [securityHeaders])
    · rw [hm]
      exact count_ratio_unit _ _ (List.length_filter_le _ _)
        (by norm_num [errorKeywords])
  · intro raw hbt nv hnv
    unfold TimingFeatureExtractor.extract at hnv
    simp only [List.mem_append, List.mem_cons, List.not_mem_nil, or_false]
      at hnv
    have hvar : ∀ ts : List ℚ, 0 ≤
        ((ts.map (fun t => (t - ts.sum / (ts.length : ℚ)) ^ 2)).sum) /
          (ts.length : ℚ) := by
      intro ts
      apply div_nonneg _ (by positivity)
      apply List.sum_nonneg
      intro x hx
      obtain ⟨t, _, rfl⟩ := List.mem_map.mp hx
      positivity
    rcases hnv with (hm | hm) | hm
    · rw [hm]
      refine ⟨le_min ?_ (by norm_num), min_le_of_right_le (by norm_num)⟩
      have : 0 ≤ raw.test_ms - raw.baseline_ms := by linarith
      positivity
    · split_ifs at hm with hd
      · simp only [List.mem_cons, List.not_mem_nil, or_false] at hm
        rw [hm]
        constructor
        · exact le_max_left 0 _
        · exact max_le (by norm_num) (min_le_of_right_le (by norm_num))
      · simp at hm
    · split_ifs at hm with hc
      · simp only [List.mem_cons, List.not_mem_nil, or_false] at hm
        rw [hm]
        have h0 := hvar (raw.test_times.getD [raw.test_ms])
        constructor
        · positivity
        · rw [div_le_one (by positivity)]
          linarith
      · simp at hm

/-- C2 witness: the amended bounds at a concrete 5xx HTTP response with
latency 100ms and a concrete timing observation 100ms over baseline. -/
theorem c2_extracted_features_witness :
    ((0 : ℚ) ≤ 100 ∧ (0 ≤ (1 : ℚ) ∧ (1 : ℚ) ≤ 1)) ∧
    ((100 : ℚ) ≤ 200 ∧ (0 ≤ (1 : ℚ) / 300 ∧ (1 : ℚ) / 300 ≤ 1)) := by
  constructor
  · refine ⟨by norm_num, ?_⟩
    exact c2_extracted_features_lie_in_unit_interval.1 (fun _ _ => false)
      ⟨"", [], 500, 100⟩ (by norm_num) ("status_code_5xx", 1)
      (by
        unfold HTTPResponseFeatureExtractor.extract
        norm_num [SQL_ERROR_PATTERNS, XSS_PATTERNS, List.filter])
  · refine ⟨by norm_num, ?_⟩
    exact c2_extracted_features_lie_in_unit_interval.2
      ⟨100, 200, 5000, none⟩ (by norm_num) ("time_diff_ms", 1 / 300)
      (by
        unfold TimingFeatureExtractor.extract
        norm_num)

end Overwatch
